import Mathlib

/-!
Shallow embedding of the tochka-stock exchange backend (schemas.py,
database.py, dependencies.py, main.py, messaging.py) together with the
components the specification defines but the repository leaves as stubs
(matching engine, sequencer), and proofs of the specification claims.
-/

namespace StockExchange

/-- Side of an order, from `schemas.Direction`. -/
inductive Direction where
  | BUY
  | SELL
deriving DecidableEq

/-- Order status, from `schemas.OrderStatus`.  The Python enum is a `str`
enum; `OrderStatus.value` below gives the serialized string of each state. -/
inductive OrderStatus where
  | NEW
  | EXECUTED
  | PART_EXECUTED
  | CANCELLED
deriving DecidableEq

/-- The string value each `OrderStatus` member carries in `schemas.py`. -/
def OrderStatus.value : OrderStatus → String
  | .NEW => "NEW"
  | .EXECUTED => "EXECUTED"
  | .PART_EXECUTED => "PART_EXECUTED"
  | .CANCELLED => "CANCELLED"

/-- User role, from `schemas.UserRole`. -/
inductive UserRole where
  | USER
  | ADMIN
deriving DecidableEq

/-- The opposite side of the book relative to a direction. -/
def Direction.opposite : Direction → Direction
  | .BUY => .SELL
  | .SELL => .BUY

/-- A row of the `users` table (`database.UserDB`). -/
structure UserRow where
  id : String
  name : String
  role : UserRole
  apiKey : String
deriving DecidableEq

/-- A row of the `instruments` table (`database.InstrumentDB`). -/
structure InstrumentRow where
  id : Int
  name : String
  ticker : String
deriving DecidableEq

/-- A row of the `market_orders` table (`database.MarketOrderDB`).
The table has no sequence-number column; `timestamp` is the only
time-like field. -/
structure MarketOrderRow where
  id : String
  status : OrderStatus
  userId : String
  instrumentId : Int
  direction : Direction
  qty : Int
  timestamp : Nat
deriving DecidableEq

/-- A row of the `limit_orders` table (`database.LimitOrderDB`). -/
structure LimitOrderRow where
  id : String
  status : OrderStatus
  userId : String
  instrumentId : Int
  direction : Direction
  qty : Int
  price : Int
  timestamp : Nat
deriving DecidableEq

/-- The SQLite database state: the four tables created by `database.py`. -/
structure DB where
  users : List UserRow
  instruments : List InstrumentRow
  marketOrders : List MarketOrderRow
  limitOrders : List LimitOrderRow
deriving DecidableEq

/-- The RabbitMQ message payload, from `schemas.OrderMessage`. -/
structure OrderMessage where
  order_id : String
  order_type : String
  user_id : String
  ticker : String
  direction : Direction
  qty : Int
  price : Option Int
  timestamp : Nat
deriving DecidableEq

/-- The validated request body `schemas.MarketOrderCreate`. -/
structure MarketOrderCreate where
  direction : Direction
  ticker : String
  qty : Int
deriving DecidableEq

/-- Pydantic construction of `MarketOrderCreate`: the `check_qty` validator
rejects `qty < 1`. -/
def MarketOrderCreate.build (direction : Direction) (ticker : String)
    (qty : Int) : Option MarketOrderCreate :=
  if qty < 1 then none
  else some { direction := direction, ticker := ticker, qty := qty }

/-- The validated request body `schemas.LimitOrderCreate`. -/
structure LimitOrderCreate where
  direction : Direction
  ticker : String
  qty : Int
  price : Int
deriving DecidableEq

/-- Pydantic construction of `LimitOrderCreate`: `check_qty` rejects
`qty < 1` and `check_price` rejects `price ≤ 0`. -/
def LimitOrderCreate.build (direction : Direction) (ticker : String)
    (qty price : Int) : Option LimitOrderCreate :=
  if qty < 1 then none
  else if price ≤ 0 then none
  else some { direction := direction, ticker := ticker, qty := qty, price := price }

/-- The validated request body `schemas.InstrumentCreate`. -/
structure InstrumentCreate where
  name : String
  ticker : String
deriving DecidableEq

/-- The `check_ticker` regex of `schemas.InstrumentCreate`:
`fullmatch(r'^[A-Z]\x7b2,10\x7d$', value)`. -/
def validTicker (t : String) : Bool :=
  2 ≤ t.length && t.length ≤ 10 && t.toList.all (fun c => 'A' ≤ c && c ≤ 'Z')

/-- Pydantic construction of `InstrumentCreate`. -/
def InstrumentCreate.build (name ticker : String) : Option InstrumentCreate :=
  if validTicker ticker then some { name := name, ticker := ticker } else none

/-- `dependencies.get_user_by_api_key`. -/
def get_user_by_api_key (db : DB) (apiKey : String) : Option UserRow :=
  db.users.find? (fun u => u.apiKey == apiKey)

/-- `dependencies.get_instrument_by_ticker`. -/
def get_instrument_by_ticker (db : DB) (ticker : String) : Option InstrumentRow :=
  db.instruments.find? (fun i => i.ticker == ticker)

/-- The HTTP errors the embedded handlers raise. -/
inductive ApiError where
  | ValidationErr
  | Unauthorized
  | ApiKeyExists
  | TickerExists
  | InstrumentNotFound
deriving DecidableEq

deriving instance DecidableEq for Except

/-- Outcome of the `create_user` handler. -/
structure UserOutcome where
  db : DB
  result : Except ApiError UserRow
deriving DecidableEq

/-- `main.create_user`: duplicate api keys are rejected, otherwise a new user
row is inserted.  `freshId` models the generated uuid. -/
def create_user (db : DB) (name : String) (role : UserRole)
    (apiKey freshId : String) : UserOutcome :=
  match get_user_by_api_key db apiKey with
  | some _ => { db := db, result := .error .ApiKeyExists }
  | none =>
    let row : UserRow := { id := freshId, name := name, role := role, apiKey := apiKey }
    { db := { db with users := db.users ++ [row] }, result := .ok row }

/-- Outcome of the `create_instrument` handler. -/
structure InstrumentOutcome where
  db : DB
  result : Except ApiError InstrumentRow
deriving DecidableEq

/-- `main.create_instrument`: an existing ticker is rejected with 400,
otherwise a new instrument row is inserted (id from autoincrement). -/
def create_instrument (db : DB) (instrument : InstrumentCreate)
    (freshId : Int) : InstrumentOutcome :=
  match get_instrument_by_ticker db instrument.ticker with
  | some _ => { db := db, result := .error .TickerExists }
  | none =>
    let row : InstrumentRow :=
      { id := freshId, name := instrument.name, ticker := instrument.ticker }
    { db := { db with instruments := db.instruments ++ [row] }, result := .ok row }

/-- Outcome of the market-order creation endpoint: the new database state,
the order messages actually delivered to the broker, and the response. -/
structure MarketCreateOutcome where
  db : DB
  published : List OrderMessage
  result : Except ApiError MarketOrderRow
deriving DecidableEq

/-- `main.create_market_order`, including the FastAPI pipeline that runs
before the handler body: pydantic validation of the body
(`MarketOrderCreate.build`), then the `authenticate_user` dependency, then
the handler.  The handler looks up the instrument, inserts the order row
(status defaults to NEW), commits, and calls
`OrderPublisher.publish_order`, whose boolean result is ignored —
`publishOk` models whether the broker publish succeeded; on failure the
message is only logged and the handler still returns the order. -/
def create_market_order (db : DB) (direction : Direction) (ticker : String)
    (qty : Int) (apiKey freshId : String) (now : Nat) (publishOk : Bool) :
    MarketCreateOutcome :=
  match MarketOrderCreate.build direction ticker qty with
  | none => { db := db, published := [], result := .error .ValidationErr }
  | some req =>
    match get_user_by_api_key db apiKey with
    | none => { db := db, published := [], result := .error .Unauthorized }
    | some user =>
      match get_instrument_by_ticker db req.ticker with
      | none => { db := db, published := [], result := .error .InstrumentNotFound }
      | some inst =>
        let row : MarketOrderRow :=
          { id := freshId, status := .NEW, userId := user.id,
            instrumentId := inst.id, direction := req.direction,
            qty := req.qty, timestamp := now }
        let msg : OrderMessage :=
          { order_id := row.id, order_type := "market", user_id := row.userId,
            ticker := inst.ticker, direction := row.direction, qty := row.qty,
            price := none, timestamp := row.timestamp }
        { db := { db with marketOrders := db.marketOrders ++ [row] },
          published := if publishOk then [msg] else [],
          result := .ok row }

/-- Outcome of the limit-order creation endpoint. -/
structure LimitCreateOutcome where
  db : DB
  published : List OrderMessage
  result : Except ApiError LimitOrderRow
deriving DecidableEq

/-- `main.create_limit_order`, with the same pipeline as the market
endpoint but validating price as well and inserting into `limit_orders`. -/
def create_limit_order (db : DB) (direction : Direction) (ticker : String)
    (qty price : Int) (apiKey freshId : String) (now : Nat)
    (publishOk : Bool) : LimitCreateOutcome :=
  match LimitOrderCreate.build direction ticker qty price with
  | none => { db := db, published := [], result := .error .ValidationErr }
  | some req =>
    match get_user_by_api_key db apiKey with
    | none => { db := db, published := [], result := .error .Unauthorized }
    | some user =>
      match get_instrument_by_ticker db req.ticker with
      | none => { db := db, published := [], result := .error .InstrumentNotFound }
      | some inst =>
        let row : LimitOrderRow :=
          { id := freshId, status := .NEW, userId := user.id,
            instrumentId := inst.id, direction := req.direction,
            qty := req.qty, price := req.price, timestamp := now }
        let msg : OrderMessage :=
          { order_id := row.id, order_type := "limit", user_id := row.userId,
            ticker := inst.ticker, direction := row.direction, qty := row.qty,
            price := some row.price, timestamp := row.timestamp }
        { db := { db with limitOrders := db.limitOrders ++ [row] },
          published := if publishOk then [msg] else [],
          result := .ok row }

/-- A trade record; `messaging.py` never creates one (no matching engine),
so consumer results always carry an empty list of trades. -/
structure TradeRow where
  price : Int
  qty : Int
deriving DecidableEq

/-- Outcome of consuming one broker message: the new database state,
whether the message was acknowledged (removed from the queue), and the
trades generated (always none in this code). -/
structure ConsumeResult where
  db : DB
  acked : Bool
  trades : List TradeRow
deriving DecidableEq

/-- The status update `db_order.status = OrderStatus.EXECUTED` performed by
the consumer on the row whose primary key matches. -/
def setMarketOrderStatus (orders : List MarketOrderRow) (oid : String)
    (s : OrderStatus) : List MarketOrderRow :=
  orders.map (fun o => if o.id == oid then { o with status := s } else o)

/-- `OrderConsumer.process_market_order` (messaging.py): look the order up
by id; if found, set its status to EXECUTED and commit; in every case
acknowledge the message.  No book is read, no trade is produced. -/
def process_market_order (db : DB) (msg : OrderMessage) : ConsumeResult :=
  match db.marketOrders.find? (fun o => o.id == msg.order_id) with
  | some _ =>
    { db := { db with
        marketOrders := setMarketOrderStatus db.marketOrders msg.order_id .EXECUTED },
      acked := true, trades := [] }
  | none => { db := db, acked := true, trades := [] }

/-- `OrderConsumer.process_limit_order` (messaging.py): look the order up
by id; whether found or not, only log and acknowledge — no state change. -/
def process_limit_order (db : DB) (msg : OrderMessage) : ConsumeResult :=
  match db.limitOrders.find? (fun o => o.id == msg.order_id) with
  | some _ => { db := db, acked := true, trades := [] }
  | none => { db := db, acked := true, trades := [] }

/-- Kind of an order as in the specification (MARKET or LIMIT). -/
inductive OrderKind where
  | MARKET
  | LIMIT
deriving DecidableEq

/-- Modelled from the spec: a resting limit order of the Order Book
(sections 3 and 4.4).  The repository has no order book — its consumer
stubs in messaging.py only log — so the book entry is taken from the
specification's data model: order id, sequence number, price and
remaining quantity. -/
structure RestingOrder where
  orderId : String
  seq : Nat
  price : Int
  qty : Nat
deriving DecidableEq

/-- Modelled from the spec: a Trade produced by one matching step
(section 3), recording the passive price, the fill quantity and the
resting order it filled against. -/
structure TradeRec where
  price : Int
  qty : Nat
  restingId : String
  restingSeq : Nat
deriving DecidableEq

/-- Default trade used with `List.getD`. -/
def dummyTrade : TradeRec :=
  { price := 0, qty := 0, restingId := "", restingSeq := 0 }

/-- Default resting order used with `List.getD`. -/
def dummyResting : RestingOrder :=
  { orderId := "", seq := 0, price := 0, qty := 0 }

/-- Modelled from the spec: the crossing condition of section 4.3 step 2 —
MARKET always crosses; a LIMIT BUY crosses iff its price is at least the
best ask, a LIMIT SELL iff its price is at most the best bid. -/
def crosses (kind : OrderKind) (side : Direction) (oPrice bestPrice : Int) :
    Bool :=
  match kind, side with
  | .MARKET, _ => true
  | .LIMIT, .BUY => bestPrice ≤ oPrice
  | .LIMIT, .SELL => oPrice ≤ bestPrice

/-- Modelled from the spec: one matching step between the incoming order O
(remaining quantity `oQty`) and the head H of the best opposite price
level (section 4.3 step 2): the fill is `min(O.qty, H.qty)`, the trade
price is H's price, and both quantities are decremented by the fill. -/
def matchStep (oQty : Nat) (h : RestingOrder) :
    TradeRec × Nat × RestingOrder :=
  let fill := min oQty h.qty
  ({ price := h.price, qty := fill, restingId := h.orderId,
     restingSeq := h.seq },
   oQty - fill, { h with qty := h.qty - fill })

/-- Modelled from the spec: the matching loop of section 4.3 step 2, over
the opposite side of the book flattened into priority order (best price
level first, FIFO within each level).  While the incoming order has
quantity left and the head crosses, one `matchStep` runs: a fully filled
head is removed and the loop continues, a partially filled head stays at
the front and the loop stops (the incoming quantity is then exhausted).
Returns the trades in the order they were generated, the residual
quantity and the remaining queue. -/
def matchLoop (kind : OrderKind) (side : Direction) (oPrice : Int) :
    Nat → List RestingOrder → List TradeRec × Nat × List RestingOrder
  | oQty, [] => ([], oQty, [])
  | oQty, h :: rest =>
    if oQty = 0 then ([], oQty, h :: rest)
    else if crosses kind side oPrice h.price then
      let t := (matchStep oQty h).1
      let oQty2 := (matchStep oQty h).2.1
      let h2 := (matchStep oQty h).2.2
      if h2.qty = 0 then
        let r := matchLoop kind side oPrice oQty2 rest
        (t :: r.1, r.2.1, r.2.2)
      else (t :: [], oQty2, h2 :: rest)
    else ([], oQty, h :: rest)


/-- Modelled from the spec: the per-instrument counter table of the
Sequencer (section 4.1 with the per-instrument choice of section 5); the
repository has no sequencer and `MarketOrderDB` stores no sequence
number, only a wall-clock timestamp.  Lookup of a counter, defaulting
to 0. -/
def seqLookup (s : List (Int × Nat)) (inst : Int) : Nat :=
  match s.find? (fun p => p.1 == inst) with
  | some p => p.2
  | none => 0

/-- Modelled from the spec: storing an updated counter (newest binding
shadows older ones). -/
def seqStore (s : List (Int × Nat)) (inst : Int) (v : Nat) :
    List (Int × Nat) :=
  (inst, v) :: s

/-- Modelled from the spec: `assign(order_intent)` atomically allocates
the next sequence number for the intent's instrument (section 4.1).
The order's wall-clock timestamp is metadata and is never consulted. -/
def assignSeq (s : List (Int × Nat)) (inst : Int) : Nat × List (Int × Nat) :=
  (seqLookup s inst + 1, seqStore s inst (seqLookup s inst + 1))

/-- Modelled from the spec: running the Sequencer over a stream of order
intents, each a pair of instrument id and submission timestamp; yields
the (instrument, sequence number) assignments in order. -/
def runSequencer (s : List (Int × Nat)) :
    List (Int × Nat) → List (Int × Nat)
  | [] => []
  | intent :: rest =>
    (intent.1, (assignSeq s intent.1).1) ::
      runSequencer (assignSeq s intent.1).2 rest

def c2row : MarketOrderRow :=
  { id := "m1", status := .NEW, userId := "u1", instrumentId := 1,
    direction := .BUY, qty := 10, timestamp := 0 }

def c2db : DB :=
  { users := [], instruments := [], marketOrders := [c2row], limitOrders := [] }

def c2msg : OrderMessage :=
  { order_id := "m1", order_type := "market", user_id := "u1", ticker := "AAPL",
    direction := .BUY, qty := 10, price := none, timestamp := 0 }

def c5row : MarketOrderRow :=
  { id := "m2", status := .CANCELLED, userId := "u1", instrumentId := 1,
    direction := .SELL, qty := 4, timestamp := 0 }

def c5db : DB :=
  { users := [], instruments := [], marketOrders := [c5row], limitOrders := [] }

def c5msg : OrderMessage :=
  { order_id := "m2", order_type := "market", user_id := "u1", ticker := "AAPL",
    direction := .SELL, qty := 4, price := none, timestamp := 0 }

def c3db : DB :=
  { users := [{ id := "u1", name := "alice", role := .USER, apiKey := "k1" }],
    instruments := [{ id := 1, name := "Apple", ticker := "AAPL" }],
    marketOrders := [], limitOrders := [] }

def dbEmpty : DB :=
  { users := [], instruments := [], marketOrders := [], limitOrders := [] }

def c3wrow : MarketOrderRow :=
  { id := "m2", status := .NEW, userId := "u1", instrumentId := 1,
    direction := .SELL, qty := 2, timestamp := 1 }

def c5wdb : DB :=
  { users := [{ id := "u9", name := "bob", role := .USER, apiKey := "k9" }],
    instruments := [{ id := 2, name := "Tesla", ticker := "TSLA" }],
    marketOrders := [], limitOrders := [] }

def c5wrow : MarketOrderRow :=
  { id := "m7", status := .NEW, userId := "u9", instrumentId := 2,
    direction := .BUY, qty := 3, timestamp := 5 }

def c6inst : InstrumentCreate := { name := "Gold", ticker := "GOLD" }

def c8opp : List RestingOrder :=
  [{ orderId := "a", seq := 1, price := 101, qty := 10 },
   { orderId := "b", seq := 2, price := 101, qty := 10 }]

lemma matchLoop_cons_full (kind : OrderKind) (side : Direction)
    (oPrice : Int) (oQty : Nat) (h : RestingOrder) (rest : List RestingOrder)
    (h0 : ¬ oQty = 0) (hc : crosses kind side oPrice h.price = true)
    (hq : h.qty - min oQty h.qty = 0) :
    matchLoop kind side oPrice oQty (h :: rest) =
      ((matchStep oQty h).1 ::
          (matchLoop kind side oPrice (oQty - min oQty h.qty) rest).1,
       (matchLoop kind side oPrice (oQty - min oQty h.qty) rest).2.1,
       (matchLoop kind side oPrice (oQty - min oQty h.qty) rest).2.2) := by
  simp [matchLoop, h0, hc, matchStep, hq]

lemma matchLoop_cons_part (kind : OrderKind) (side : Direction)
    (oPrice : Int) (oQty : Nat) (h : RestingOrder) (rest : List RestingOrder)
    (h0 : ¬ oQty = 0) (hc : crosses kind side oPrice h.price = true)
    (hq : ¬ h.qty - min oQty h.qty = 0) :
    matchLoop kind side oPrice oQty (h :: rest) =
      ([(matchStep oQty h).1], oQty - min oQty h.qty,
       (matchStep oQty h).2.2 :: rest) := by
  simp [matchLoop, h0, hc, matchStep, hq]

lemma matchLoop_cons_stop (kind : OrderKind) (side : Direction)
    (oPrice : Int) (oQty : Nat) (h : RestingOrder) (rest : List RestingOrder)
    (hstop : oQty = 0 ∨ crosses kind side oPrice h.price = false) :
    matchLoop kind side oPrice oQty (h :: rest) = ([], oQty, h :: rest) := by
  rcases hstop with h0 | hc
  · simp [matchLoop, h0]
  · by_cases h0 : oQty = 0
    · simp [matchLoop, h0]
    · simp [matchLoop, h0, hc]

lemma matchLoop_qty_sum (kind : OrderKind) (side : Direction) (oPrice : Int) :
    ∀ (opp : List RestingOrder) (oQty : Nat),
      ((matchLoop kind side oPrice oQty opp).1.map TradeRec.qty).sum +
        (matchLoop kind side oPrice oQty opp).2.1 = oQty := by
  intro opp
  induction opp with
  | nil => intro oQty; simp [matchLoop]
  | cons h rest ih =>
    intro oQty
    by_cases h0 : oQty = 0
    · rw [matchLoop_cons_stop kind side oPrice oQty h rest (Or.inl h0)]
      simp [h0]
    · by_cases hc : crosses kind side oPrice h.price
      · by_cases hq : h.qty - min oQty h.qty = 0
        · rw [matchLoop_cons_full kind side oPrice oQty h rest h0 hc hq]
          have := ih (oQty - min oQty h.qty)
          simp [matchStep] at this ⊢
          omega
        · rw [matchLoop_cons_part kind side oPrice oQty h rest h0 hc hq]
          simp [matchStep]
      · rw [matchLoop_cons_stop kind side oPrice oQty h rest
            (Or.inr (by simpa using hc))]
        simp

lemma matchLoop_len (kind : OrderKind) (side : Direction) (oPrice : Int) :
    ∀ (opp : List RestingOrder) (oQty : Nat),
      (matchLoop kind side oPrice oQty opp).1.length ≤ opp.length := by
  intro opp
  induction opp with
  | nil => intro oQty; simp [matchLoop]
  | cons h rest ih =>
    intro oQty
    by_cases h0 : oQty = 0
    · rw [matchLoop_cons_stop kind side oPrice oQty h rest (Or.inl h0)]
      simp
    · by_cases hc : crosses kind side oPrice h.price
      · by_cases hq : h.qty - min oQty h.qty = 0
        · rw [matchLoop_cons_full kind side oPrice oQty h rest h0 hc hq]
          have := ih (oQty - min oQty h.qty)
          simp
          omega
        · rw [matchLoop_cons_part kind side oPrice oQty h rest h0 hc hq]
          simp
      · rw [matchLoop_cons_stop kind side oPrice oQty h rest
            (Or.inr (by simpa using hc))]
        simp

lemma matchLoop_getD (kind : OrderKind) (side : Direction) (oPrice : Int) :
    ∀ (opp : List RestingOrder) (oQty i : Nat),
      i < (matchLoop kind side oPrice oQty opp).1.length →
      (((matchLoop kind side oPrice oQty opp).1.getD i dummyTrade).restingId =
          (opp.getD i dummyResting).orderId ∧
       ((matchLoop kind side oPrice oQty opp).1.getD i dummyTrade).restingSeq =
          (opp.getD i dummyResting).seq ∧
       ((matchLoop kind side oPrice oQty opp).1.getD i dummyTrade).price =
          (opp.getD i dummyResting).price ∧
       ((matchLoop kind side oPrice oQty opp).1.getD i dummyTrade).qty ≤
          (opp.getD i dummyResting).qty ∧
       (i + 1 < (matchLoop kind side oPrice oQty opp).1.length →
          ((matchLoop kind side oPrice oQty opp).1.getD i dummyTrade).qty =
            (opp.getD i dummyResting).qty)) := by
  intro opp
  induction opp with
  | nil => intro oQty i hi; simp [matchLoop] at hi
  | cons h rest ih =>
    intro oQty i hi
    by_cases h0 : oQty = 0
    · rw [matchLoop_cons_stop kind side oPrice oQty h rest (Or.inl h0)] at hi
      simp at hi
    · by_cases hc : crosses kind side oPrice h.price
      · by_cases hq : h.qty - min oQty h.qty = 0
        · have hful : min oQty h.qty = h.qty := by
            have := Nat.min_le_right oQty h.qty
            omega
          rw [matchLoop_cons_full kind side oPrice oQty h rest h0 hc hq] at hi ⊢
          cases i with
          | zero => simp [matchStep, hful]
          | succ i' =>
            simp only [List.length_cons, Nat.succ_lt_succ_iff] at hi
            have := ih (oQty - min oQty h.qty) i' hi
            simpa using this
        · rw [matchLoop_cons_part kind side oPrice oQty h rest h0 hc hq] at hi ⊢
          cases i with
          | zero =>
            refine ⟨rfl, rfl, rfl, ?_, ?_⟩
            · simp [matchStep]
            · intro hcontra
              simp at hcontra
          | succ i' => simp at hi
      · rw [matchLoop_cons_stop kind side oPrice oQty h rest
            (Or.inr (by simpa using hc))] at hi
        simp at hi

lemma seqLookup_store_self (s : List (Int × Nat)) (inst : Int) (v : Nat) :
    seqLookup (seqStore s inst v) inst = v := by
  simp [seqLookup, seqStore]

lemma seqLookup_cons_ne (a : Int × Nat) (s : List (Int × Nat)) (j : Int)
    (h : ¬ a.1 = j) : seqLookup (a :: s) j = seqLookup s j := by
  unfold seqLookup
  have hfind : List.find? (fun p => p.1 == j) (a :: s) =
      List.find? (fun p => p.1 == j) s := by
    apply List.find?_cons_of_neg
    simpa using h
  rw [hfind]

lemma seqLookup_store_le (s : List (Int × Nat)) (inst j : Int) :
    seqLookup s j ≤ seqLookup (assignSeq s inst).2 j := by
  by_cases h : j = inst
  · subst h
    rw [show (assignSeq s j).2 = seqStore s j (seqLookup s j + 1) from rfl,
      seqLookup_store_self]
    omega
  · rw [show (assignSeq s inst).2 = seqStore s inst (seqLookup s inst + 1) from rfl,
      show seqStore s inst (seqLookup s inst + 1) =
        (inst, seqLookup s inst + 1) :: s from rfl,
      seqLookup_cons_ne (inst, seqLookup s inst + 1) s j (fun hc => h hc.symm)]

lemma runSequencer_sound :
    ∀ (intents : List (Int × Nat)) (s : List (Int × Nat)),
      (∀ p ∈ runSequencer s intents, seqLookup s p.1 < p.2) ∧
      List.Pairwise (fun a b => a.1 = b.1 → a.2 < b.2)
        (runSequencer s intents) := by
  intro intents
  induction intents with
  | nil => intro s; simp [runSequencer]
  | cons intent rest ih =>
    intro s
    obtain ⟨ihb, ihp⟩ := ih (assignSeq s intent.1).2
    constructor
    · intro p hp
      rw [runSequencer] at hp
      rcases List.mem_cons.mp hp with hp | hp
      · subst hp
        simp [assignSeq]
      · have h1 := ihb p hp
        have h2 := seqLookup_store_le s intent.1 p.1
        omega
    · rw [runSequencer]
      refine List.Pairwise.cons ?_ ihp
      intro p hp heq
      have h1 := ihb p hp
      rw [← heq] at h1
      have : seqLookup (assignSeq s intent.1).2 intent.1 =
          (assignSeq s intent.1).1 := by
        simp [assignSeq, seqLookup_store_self]
      rw [heq] at h1
      rw [← heq, this] at h1
      omega

lemma runSequencer_fst_only :
    ∀ (l1 l2 : List (Int × Nat)) (s : List (Int × Nat)),
      l1.map Prod.fst = l2.map Prod.fst →
      runSequencer s l1 = runSequencer s l2 := by
  intro l1
  induction l1 with
  | nil =>
    intro l2 s h
    cases l2 with
    | nil => rfl
    | cons b t => simp at h
  | cons a t1 ih =>
    intro l2 s h
    cases l2 with
    | nil => simp at h
    | cons b t2 =>
      simp at h
      obtain ⟨hab, ht⟩ := h
      rw [runSequencer, runSequencer, hab]
      rw [ih t2 (assignSeq s b.1).2 ht]

/-- C1: for a consumed market-order message whose order_id exists in the
database, process_market_order sets that order's status to EXECUTED, emits
no trades, preserves every order's quantity, and its result does not
depend on the resting limit orders (no liquidity, price or quantity is
inspected); for every consumed limit-order message, process_limit_order
performs no state change at all and only acknowledges. -/
theorem messaging_c1 (db : DB) (msg : OrderMessage)
    (hex : (db.marketOrders.find? (fun o => o.id == msg.order_id)).isSome = true) :
    (∃ o ∈ (process_market_order db msg).db.marketOrders,
        o.id = msg.order_id ∧ o.status = OrderStatus.EXECUTED) ∧
    (process_market_order db msg).trades = [] ∧
    ((process_market_order db msg).db.marketOrders.map MarketOrderRow.qty =
       db.marketOrders.map MarketOrderRow.qty) ∧
    (∀ l : List LimitOrderRow,
       (process_market_order { db with limitOrders := l } msg).db.marketOrders =
         (process_market_order db msg).db.marketOrders) ∧
    ((process_market_order db msg).db.limitOrders = db.limitOrders) ∧
    process_limit_order db msg = { db := db, acked := true, trades := [] } := by
  obtain ⟨o₀, ho₀⟩ := Option.isSome_iff_exists.mp hex
  have hmem := List.mem_of_find?_eq_some ho₀
  have hid0 := List.find?_some ho₀
  have hid : (o₀.id == msg.order_id) = true := by simpa using hid0
  have hpm : (process_market_order db msg).db.marketOrders
      = setMarketOrderStatus db.marketOrders msg.order_id .EXECUTED := by
    simp [process_market_order, ho₀]
  refine ⟨?_, ?_, ?_, ?_, ?_, ?_⟩
  · rw [hpm]
    exact ⟨{ o₀ with status := .EXECUTED },
      List.mem_map.mpr ⟨o₀, hmem, by simp [hid]⟩, eq_of_beq hid, rfl⟩
  · simp [process_market_order, ho₀]
  · rw [hpm]
    unfold setMarketOrderStatus
    rw [List.map_map]
    apply List.map_congr_left
    intro a _
    by_cases h : a.id = msg.order_id <;> simp [h]
  · intro l
    simp [process_market_order, ho₀]
  · simp [process_market_order, ho₀]
  · cases hfl : db.limitOrders.find? (fun o => o.id == msg.order_id) <;>
      simp [process_limit_order, hfl]

/-- Witness for C1 at a concrete database and message. -/
theorem messaging_c1_witness :
    (process_market_order c2db c2msg).trades = [] ∧
    (process_market_order c2db c2msg).db.marketOrders.map MarketOrderRow.qty =
      c2db.marketOrders.map MarketOrderRow.qty ∧
    (process_market_order c2db c2msg).db.limitOrders = c2db.limitOrders ∧
    process_limit_order c2db c2msg = { db := c2db, acked := true, trades := [] } := by
  have h := messaging_c1 c2db c2msg (by decide)
  exact ⟨h.2.1, h.2.2.1, h.2.2.2.2.1, h.2.2.2.2.2⟩

/-- C2 counterexample: with an empty book (no resting liquidity on any
side), processing a MARKET BUY order produces zero trades but puts the
order into status EXECUTED — not CANCELLED as the claim states. -/
theorem messaging_c2_counterexample :
    c2db.limitOrders = [] ∧
    (process_market_order c2db c2msg).trades = [] ∧
    (process_market_order c2db c2msg).db.marketOrders =
      [{ c2row with status := OrderStatus.EXECUTED }] ∧
    OrderStatus.EXECUTED ≠ OrderStatus.CANCELLED := by decide

/-- C2 amended: for every consumed MARKET order message whose order
exists, with no resting liquidity on the opposite side, processing
produces zero trades and puts the order into status EXECUTED (the stub
executes it regardless of liquidity; it is never CANCELLED), and the
order never rests on the book (the limit-order table is unchanged). -/
theorem messaging_c2_amended (db : DB) (msg : OrderMessage)
    (hex : (db.marketOrders.find? (fun o => o.id == msg.order_id)).isSome = true)
    (_hempty : db.limitOrders.filter
        (fun o => o.direction == msg.direction.opposite) = []) :
    (process_market_order db msg).trades = [] ∧
    (∃ o ∈ (process_market_order db msg).db.marketOrders,
        o.id = msg.order_id ∧ o.status = OrderStatus.EXECUTED) ∧
    (∀ o ∈ (process_market_order db msg).db.marketOrders,
        o.id = msg.order_id → o.status ≠ OrderStatus.CANCELLED) ∧
    (process_market_order db msg).db.limitOrders = db.limitOrders := by
  obtain ⟨o₀, ho₀⟩ := Option.isSome_iff_exists.mp hex
  have hmem := List.mem_of_find?_eq_some ho₀
  have hid0 := List.find?_some ho₀
  have hid : (o₀.id == msg.order_id) = true := by simpa using hid0
  have hpm : (process_market_order db msg).db.marketOrders
      = setMarketOrderStatus db.marketOrders msg.order_id .EXECUTED := by
    simp [process_market_order, ho₀]
  refine ⟨?_, ?_, ?_, ?_⟩
  · simp [process_market_order, ho₀]
  · rw [hpm]
    exact ⟨{ o₀ with status := .EXECUTED },
      List.mem_map.mpr ⟨o₀, hmem, by simp [hid]⟩, eq_of_beq hid, rfl⟩
  · rw [hpm]
    intro o ho hoid
    unfold setMarketOrderStatus at ho
    obtain ⟨a, _, ha⟩ := List.mem_map.mp ho
    by_cases h : a.id = msg.order_id
    · rw [← ha]
      simp [h]
    · exfalso
      rw [← ha] at hoid
      simp [h] at hoid
  · simp [process_market_order, ho₀]

/-- Witness for the amended C2 at a concrete database and message. -/
theorem messaging_c2_amended_witness :
    (process_market_order c2db c2msg).trades = [] ∧
    (process_market_order c2db c2msg).db.limitOrders = c2db.limitOrders := by
  have h := messaging_c2_amended c2db c2msg (by decide) (by decide)
  exact ⟨h.1, h.2.2.2⟩

/-- C3 counterexample: when publishing to the broker fails, the caller
still receives success and one order row is committed, but no message is
ever enqueued — the order is silently dropped from the processing
pipeline with no caller-visible error. -/
theorem main_c3_counterexample :
    (create_market_order c3db .BUY "AAPL" 5 "k1" "m1" 0 false).result.isOk = true ∧
    (create_market_order c3db .BUY "AAPL" 5 "k1" "m1" 0 false).published = [] ∧
    (create_market_order c3db .BUY "AAPL" 5 "k1" "m1" 0 false).db.marketOrders.length = 1 := by
  decide

/-- C3 amended: every order rejected before acceptance yields exactly one
caller-visible error with no state change and nothing published; every
accepted order yields exactly one durable order row before success is
returned; but a publish failure after acceptance is not surfaced — the
caller still gets success and the message list is empty. -/
theorem main_c3_amended (db : DB) (d : Direction) (t : String) (q : Int)
    (key fid : String) (now : Nat) (pub : Bool) (out : MarketCreateOutcome)
    (hout : out = create_market_order db d t q key fid now pub) :
    (∀ e, out.result = .error e → out.db = db ∧ out.published = []) ∧
    (∀ row, out.result = .ok row →
       out.db.marketOrders = db.marketOrders ++ [row] ∧
       out.db.users = db.users ∧
       out.db.instruments = db.instruments ∧
       out.db.limitOrders = db.limitOrders ∧
       (pub = false → out.published = []) ∧
       (pub = true → out.published.length = 1)) := by
  subst hout
  cases hb : MarketOrderCreate.build d t q with
  | none =>
    refine ⟨fun e h => ?_, fun row h => ?_⟩
    · simp [create_market_order, hb]
    · simp [create_market_order, hb] at h
  | some req =>
    cases hu : get_user_by_api_key db key with
    | none =>
      refine ⟨fun e h => ?_, fun row h => ?_⟩
      · simp [create_market_order, hb, hu]
      · simp [create_market_order, hb, hu] at h
    | some user =>
      cases hi : get_instrument_by_ticker db req.ticker with
      | none =>
        refine ⟨fun e h => ?_, fun row h => ?_⟩
        · simp [create_market_order, hb, hu, hi]
        · simp [create_market_order, hb, hu, hi] at h
      | some inst =>
        refine ⟨fun e h => ?_, fun row h => ?_⟩
        · simp [create_market_order, hb, hu, hi] at h
        · simp [create_market_order, hb, hu, hi] at h
          subst h
          cases pub <;> simp [create_market_order, hb, hu, hi]

/-- Witness for the amended C3 at a concrete database and request. -/
theorem main_c3_amended_witness :
    (create_market_order c3db .SELL "AAPL" 2 "k1" "m2" 1 true).db.marketOrders =
      c3db.marketOrders ++ [c3wrow] ∧
    (create_market_order c3db .SELL "AAPL" 2 "k1" "m2" 1 true).published.length = 1 := by
  have h := (main_c3_amended c3db .SELL "AAPL" 2 "k1" "m2" 1 true
      (create_market_order c3db .SELL "AAPL" 2 "k1" "m2" 1 true) rfl).2
      c3wrow (by decide)
  exact ⟨h.1, h.2.2.2.2.2 rfl⟩

/-- C4: construction of a market order succeeds iff qty at least 1, of a
limit order iff additionally price positive; an invalid request is
rejected with a validation error before any state change — the database
is untouched and nothing is published. -/
theorem schemas_c4 :
    (∀ (d : Direction) (t : String) (q : Int),
       (MarketOrderCreate.build d t q).isSome = true ↔ 1 ≤ q) ∧
    (∀ (d : Direction) (t : String) (q p : Int),
       (LimitOrderCreate.build d t q p).isSome = true ↔ (1 ≤ q ∧ 0 < p)) ∧
    (∀ (db : DB) (d : Direction) (t : String) (q : Int) (key fid : String)
        (now : Nat) (pub : Bool),
       q < 1 →
       create_market_order db d t q key fid now pub =
         { db := db, published := [], result := .error .ValidationErr }) ∧
    (∀ (db : DB) (d : Direction) (t : String) (q p : Int) (key fid : String)
        (now : Nat) (pub : Bool),
       q < 1 ∨ p ≤ 0 →
       create_limit_order db d t q p key fid now pub =
         { db := db, published := [], result := .error .ValidationErr }) := by
  refine ⟨?_, ?_, ?_, ?_⟩
  · intro d t q
    unfold MarketOrderCreate.build
    by_cases h : q < 1
    · simp [h]
    · simp [h]
      omega
  · intro d t q p
    unfold LimitOrderCreate.build
    by_cases h1 : q < 1
    · simp [h1]
    · by_cases h2 : p ≤ 0
      · simp [h1, h2]
      · simp [h1, h2]
        omega
  · intro db d t q key fid now pub h
    simp [create_market_order, MarketOrderCreate.build, h]
  · intro db d t q p key fid now pub h
    rcases h with h | h
    · simp [create_limit_order, LimitOrderCreate.build, h]
    · by_cases h1 : q < 1
      · simp [create_limit_order, LimitOrderCreate.build, h1]
      · simp [create_limit_order, LimitOrderCreate.build, h1, h]

/-- Witness for C4 at a concrete invalid limit request. -/
theorem schemas_c4_witness :
    create_limit_order dbEmpty .BUY "AAPL" 5 0 "k1" "m3" 0 true =
      { db := dbEmpty, published := [], result := .error .ValidationErr } :=
  schemas_c4.2.2.2 dbEmpty .BUY "AAPL" 5 0 "k1" "m3" 0 true (Or.inr (by decide))

/-- C5 counterexample: an order already in the terminal status CANCELLED
is set back to EXECUTED by processing a market-order message for it, with
the message acknowledged and no error — terminal statuses are not
protected and no OrderTerminalError exists. -/
theorem schemas_c5_counterexample :
    c5row.status = OrderStatus.CANCELLED ∧
    (process_market_order c5db c5msg).db.marketOrders =
      [{ c5row with status := OrderStatus.EXECUTED }] ∧
    (process_market_order c5db c5msg).acked = true := by decide

/-- C5 amended: statuses range over exactly NEW, EXECUTED, PART_EXECUTED
and CANCELLED (no FILLED or PARTIALLY_FILLED value exists); every newly
created order starts in NEW; terminality is not enforced — processing a
market-order message for a CANCELLED order sets it to EXECUTED and
acknowledges without error. -/
theorem schemas_c5_amended :
    (∀ s : OrderStatus, s = .NEW ∨ s = .EXECUTED ∨ s = .PART_EXECUTED ∨ s = .CANCELLED) ∧
    (∀ s : OrderStatus, s.value ≠ "FILLED" ∧ s.value ≠ "PARTIALLY_FILLED") ∧
    (∀ (db : DB) (d : Direction) (t : String) (q : Int) (key fid : String)
        (now : Nat) (pub : Bool) (row : MarketOrderRow),
      (create_market_order db d t q key fid now pub).result = .ok row →
        row.status = .NEW) ∧
    (∀ (db : DB) (d : Direction) (t : String) (q p : Int) (key fid : String)
        (now : Nat) (pub : Bool) (row : LimitOrderRow),
      (create_limit_order db d t q p key fid now pub).result = .ok row →
        row.status = .NEW) ∧
    (∀ (db : DB) (msg : OrderMessage) (o : MarketOrderRow),
      o ∈ db.marketOrders → o.id = msg.order_id → o.status = .CANCELLED →
        ∃ o' ∈ (process_market_order db msg).db.marketOrders,
          o'.id = msg.order_id ∧ o'.status = OrderStatus.EXECUTED ∧
          (process_market_order db msg).acked = true) := by
  refine ⟨?_, ?_, ?_, ?_, ?_⟩
  · intro s; cases s <;> simp
  · intro s; cases s <;> decide
  · intro db d t q key fid now pub row h
    cases hb : MarketOrderCreate.build d t q with
    | none => simp [create_market_order, hb] at h
    | some req =>
      cases hu : get_user_by_api_key db key with
      | none => simp [create_market_order, hb, hu] at h
      | some user =>
        cases hi : get_instrument_by_ticker db req.ticker with
        | none => simp [create_market_order, hb, hu, hi] at h
        | some inst =>
          simp [create_market_order, hb, hu, hi] at h
          rw [← h]
  · intro db d t q p key fid now pub row h
    cases hb : LimitOrderCreate.build d t q p with
    | none => simp [create_limit_order, hb] at h
    | some req =>
      cases hu : get_user_by_api_key db key with
      | none => simp [create_limit_order, hb, hu] at h
      | some user =>
        cases hi : get_instrument_by_ticker db req.ticker with
        | none => simp [create_limit_order, hb, hu, hi] at h
        | some inst =>
          simp [create_limit_order, hb, hu, hi] at h
          rw [← h]
  · intro db msg o hmem hoid _
    have hex : (db.marketOrders.find? (fun o => o.id == msg.order_id)).isSome = true := by
      rw [List.find?_isSome]
      exact ⟨o, hmem, by simp [hoid]⟩
    obtain ⟨o₀, ho₀⟩ := Option.isSome_iff_exists.mp hex
    have hmem₀ := List.mem_of_find?_eq_some ho₀
    have hid0 := List.find?_some ho₀
    have hid : (o₀.id == msg.order_id) = true := by simpa using hid0
    have hpm : (process_market_order db msg).db.marketOrders
        = setMarketOrderStatus db.marketOrders msg.order_id .EXECUTED := by
      simp [process_market_order, ho₀]
    refine ⟨{ o₀ with status := .EXECUTED }, ?_, eq_of_beq hid, rfl, ?_⟩
    · rw [hpm]
      exact List.mem_map.mpr ⟨o₀, hmem₀, by simp [hid]⟩
    · simp [process_market_order, ho₀]


/-- Witness for the amended C5: a concrete accepted order starts NEW. -/
theorem schemas_c5_amended_witness :
    c5wrow.status = OrderStatus.NEW :=
  schemas_c5_amended.2.2.1 c5wdb .BUY "TSLA" 3 "k9" "m7" 5 true c5wrow (by decide)

/-- C6: a create-instrument request whose ticker already exists fails and
leaves the instrument set unchanged; a fresh ticker creates exactly one
new instrument; and no operation of the system (user creation, order
creation, order processing) ever changes an existing instrument's
identity — the instruments table is preserved by all of them. -/
theorem main_c6 (db : DB) (inst : InstrumentCreate) (freshId : Int) :
    ((get_instrument_by_ticker db inst.ticker).isSome = true →
       (create_instrument db inst freshId).db = db ∧
       (create_instrument db inst freshId).result = .error .TickerExists) ∧
    (get_instrument_by_ticker db inst.ticker = none →
       (create_instrument db inst freshId).db.instruments =
         db.instruments ++
           [{ id := freshId, name := inst.name, ticker := inst.ticker }] ∧
       (create_instrument db inst freshId).result =
         .ok { id := freshId, name := inst.name, ticker := inst.ticker }) ∧
    (∀ i ∈ db.instruments, i ∈ (create_instrument db inst freshId).db.instruments) ∧
    (∀ (n : String) (role : UserRole) (key fid : String),
       (create_user db n role key fid).db.instruments = db.instruments) ∧
    (∀ (d : Direction) (t : String) (q : Int) (key fid : String) (now : Nat)
        (pub : Bool),
       (create_market_order db d t q key fid now pub).db.instruments =
         db.instruments) ∧
    (∀ (d : Direction) (t : String) (q p : Int) (key fid : String) (now : Nat)
        (pub : Bool),
       (create_limit_order db d t q p key fid now pub).db.instruments =
         db.instruments) ∧
    (∀ msg : OrderMessage,
       (process_market_order db msg).db.instruments = db.instruments) ∧
    (∀ msg : OrderMessage,
       (process_limit_order db msg).db.instruments = db.instruments) := by
  refine ⟨?_, ?_, ?_, ?_, ?_, ?_, ?_, ?_⟩
  · intro h
    obtain ⟨i, hi⟩ := Option.isSome_iff_exists.mp h
    simp [create_instrument, hi]
  · intro h
    simp [create_instrument, h]
  · intro i hi
    cases h : get_instrument_by_ticker db inst.ticker <;>
      simp [create_instrument, h, hi]
  · intro n role key fid
    cases h : get_user_by_api_key db key <;> simp [create_user, h]
  · intro d t q key fid now pub
    cases hb : MarketOrderCreate.build d t q with
    | none => simp [create_market_order, hb]
    | some req =>
      cases hu : get_user_by_api_key db key with
      | none => simp [create_market_order, hb, hu]
      | some user =>
        cases hi : get_instrument_by_ticker db req.ticker with
        | none => simp [create_market_order, hb, hu, hi]
        | some i2 => simp [create_market_order, hb, hu, hi]
  · intro d t q p key fid now pub
    cases hb : LimitOrderCreate.build d t q p with
    | none => simp [create_limit_order, hb]
    | some req =>
      cases hu : get_user_by_api_key db key with
      | none => simp [create_limit_order, hb, hu]
      | some user =>
        cases hi : get_instrument_by_ticker db req.ticker with
        | none => simp [create_limit_order, hb, hu, hi]
        | some i2 => simp [create_limit_order, hb, hu, hi]
  · intro msg
    cases h : db.marketOrders.find? (fun o => o.id == msg.order_id) <;>
      simp [process_market_order, h]
  · intro msg
    cases h : db.limitOrders.find? (fun o => o.id == msg.order_id) <;>
      simp [process_limit_order, h]


/-- Witness for C6 at a concrete fresh ticker. -/
theorem main_c6_witness :
    (create_instrument dbEmpty c6inst 7).db.instruments =
      dbEmpty.instruments ++ [{ id := 7, name := "Gold", ticker := "GOLD" }] ∧
    (create_user dbEmpty "carol" .USER "k5" "u5").db.instruments =
      dbEmpty.instruments := by
  have h := main_c6 dbEmpty c6inst 7
  exact ⟨(h.2.1 (by decide)).1, h.2.2.2.1 "carol" .USER "k5" "u5"⟩

/-- C7 (spec-modelled): in every matching step between the incoming order
O and the head H of the best opposite price level, the emitted trade has
qty = min(O.qty, H.qty) and price = H's price, and both quantities are
decremented by exactly that fill; across the whole matching loop the
fills plus the residual account exactly for the incoming quantity. -/
theorem spec_c7 (oQty : Nat) (h : RestingOrder) (kind : OrderKind)
    (side : Direction) (oPrice : Int) (opp : List RestingOrder) :
    (matchStep oQty h).1.qty = min oQty h.qty ∧
    (matchStep oQty h).1.price = h.price ∧
    (matchStep oQty h).1.restingId = h.orderId ∧
    (matchStep oQty h).2.1 = oQty - min oQty h.qty ∧
    (matchStep oQty h).2.2.qty = h.qty - min oQty h.qty ∧
    ((matchLoop kind side oPrice oQty opp).1.map TradeRec.qty).sum +
        (matchLoop kind side oPrice oQty opp).2.1 = oQty := by
  refine ⟨rfl, rfl, rfl, rfl, rfl, ?_⟩
  exact matchLoop_qty_sum kind side oPrice opp oQty

/-- C8 (spec-modelled): for two resting orders at queue positions i before
j (lower sequence number first, the book's FIFO invariant), any matching
operation that reaches the later order has fully filled the earlier order
by an earlier trade: trade i names order i and fills its whole quantity,
and the trades' sequence numbers are in strictly increasing order. -/
theorem spec_c8 (kind : OrderKind) (side : Direction) (oPrice : Int)
    (oQty : Nat) (opp : List RestingOrder) (i j : Nat) (hij : i < j)
    (hj : j < (matchLoop kind side oPrice oQty opp).1.length)
    (hseq : (opp.getD i dummyResting).seq < (opp.getD j dummyResting).seq) :
    ((matchLoop kind side oPrice oQty opp).1.getD i dummyTrade).restingId =
        (opp.getD i dummyResting).orderId ∧
    ((matchLoop kind side oPrice oQty opp).1.getD i dummyTrade).qty =
        (opp.getD i dummyResting).qty ∧
    ((matchLoop kind side oPrice oQty opp).1.getD j dummyTrade).restingId =
        (opp.getD j dummyResting).orderId ∧
    ((matchLoop kind side oPrice oQty opp).1.getD i dummyTrade).restingSeq <
        ((matchLoop kind side oPrice oQty opp).1.getD j dummyTrade).restingSeq := by
  have hi : i < (matchLoop kind side oPrice oQty opp).1.length :=
    Nat.lt_trans hij hj
  have hfi := matchLoop_getD kind side oPrice opp oQty i hi
  have hfj := matchLoop_getD kind side oPrice opp oQty j hj
  refine ⟨hfi.1, ?_, hfj.1, ?_⟩
  · exact hfi.2.2.2.2 (Nat.lt_of_lt_of_le (Nat.succ_lt_succ hij)
      (Nat.succ_le_of_lt hj))
  · rw [hfi.2.1, hfj.2.1]
    exact hseq

/-- Witness for C8: market buy 15 against two resting 10-lots at 101. -/
theorem spec_c8_witness :
    ((matchLoop OrderKind.MARKET Direction.BUY 0 15 c8opp).1.getD 0
        dummyTrade).restingId = (c8opp.getD 0 dummyResting).orderId ∧
    ((matchLoop OrderKind.MARKET Direction.BUY 0 15 c8opp).1.getD 0
        dummyTrade).qty = (c8opp.getD 0 dummyResting).qty ∧
    ((matchLoop OrderKind.MARKET Direction.BUY 0 15 c8opp).1.getD 1
        dummyTrade).restingId = (c8opp.getD 1 dummyResting).orderId ∧
    ((matchLoop OrderKind.MARKET Direction.BUY 0 15 c8opp).1.getD 0
        dummyTrade).restingSeq <
      ((matchLoop OrderKind.MARKET Direction.BUY 0 15 c8opp).1.getD 1
        dummyTrade).restingSeq :=
  spec_c8 OrderKind.MARKET Direction.BUY 0 15 c8opp 0 1 (by decide)
    (by decide) (by decide)

/-- C9 (spec-modelled): the Sequencer assigns to every accepted order a
sequence number strictly greater than every number previously assigned
for that instrument (hence never the same number twice per instrument),
every assigned number is positive, and the assignment depends only on the
stream of instruments, never on the wall-clock timestamps. -/
theorem spec_c9 (intents : List (Int × Nat)) :
    List.Pairwise (fun a b => a.1 = b.1 → a.2 < b.2)
      (runSequencer [] intents) ∧
    (∀ p ∈ runSequencer [] intents, 0 < p.2) ∧
    (∀ other : List (Int × Nat),
       intents.map Prod.fst = other.map Prod.fst →
       runSequencer [] intents = runSequencer [] other) := by
  obtain ⟨hb, hp⟩ := runSequencer_sound intents []
  refine ⟨hp, ?_, ?_⟩
  · intro p hmem
    have := hb p hmem
    omega
  · intro other h
    exact runSequencer_fst_only intents other [] h

/-- Witness for C9: two intent streams differing only in timestamps
receive identical sequence assignments. -/
theorem spec_c9_witness :
    runSequencer [] [((1 : Int), (5 : Nat)), (1, 7), (2, 3)] =
      runSequencer [] [(1, 0), (1, 9), (2, 2)] :=
  (spec_c9 [((1 : Int), (5 : Nat)), (1, 7), (2, 3)]).2.2
    [(1, 0), (1, 9), (2, 2)] rfl

/-- C10: a consumed market-order message whose order_id matches no order
changes no database row, still acknowledges the message, and produces no
trades. -/
theorem messaging_c10 (db : DB) (msg : OrderMessage)
    (h : db.marketOrders.find? (fun o => o.id == msg.order_id) = none) :
    (process_market_order db msg).db = db ∧
    (process_market_order db msg).acked = true ∧
    (process_market_order db msg).trades = [] := by
  simp [process_market_order, h]

/-- Witness for C10 at a concrete empty database. -/
theorem messaging_c10_witness :
    (process_market_order dbEmpty c2msg).db = dbEmpty ∧
    (process_market_order dbEmpty c2msg).acked = true := by
  have h := messaging_c10 dbEmpty c2msg (by decide)
  exact ⟨h.1, h.2.1⟩

end StockExchange
